import Mathlib

/-!
Verification of the core algorithms of a retrieval-augmented conversational
agent.  The development shallowly embeds, directly from the Python sources:

* the Reciprocal Rank Fusion retrieval pipeline
  (`src/agent/nodes/retrieve.py`): `reciprocal_rank_fusion`,
  `find_document_by_id`, and the dedup/cap loop of `retrieve_context_node`;
* the conflict machinery (`src/agent/helpers.py::check_contradiction`,
  `src/agent/nodes/check_conflicts.py`, `src/agent/nodes/resolve_conflicts.py`);
* the fact-store wrapper (`src/clients/qdrant_client.py`), over a simple
  model of the external vector store;
* the bounded ReAct loop (`src/agent/nodes/react.py`): thought validation,
  the duplicate-query guard of `SearchTool.execute`, and `ReactAgent.run`.

Floats in the sources are modelled as rationals; the LLM, the embedder and
the vector store are oracles passed in as explicit function arguments.
-/

/-- Python's `str.strip()`: drop whitespace from both ends (structural, so
that concrete runs evaluate). -/
def pyStrip (s : String) : String :=
  ⟨((s.data.dropWhile Char.isWhitespace).reverse.dropWhile Char.isWhitespace).reverse⟩

/-- Python's `str.lower()`. -/
def pyLower (s : String) : String := ⟨s.data.map Char.toLower⟩

/-- Python's slicing `s[:n]`. -/
def pyTake (s : String) (n : ℕ) : String := ⟨s.data.take n⟩

/-- An embedding vector (`List[float]` in the source). -/
abbrev Vec := List ℚ

/-- The payload stored with each Qdrant point
(`qdrant_client.py::insert_record` builds `{"fact", "message_id",
"is_relevant"}` plus optional extras used by the nodes). -/
structure Payload where
  fact : String := ""
  message_id : Option String := none
  record_id : Option String := none
  is_relevant : Bool := true
  timestamp : Option String := none
  description : String := ""
  examples : String := ""
  deriving Repr, DecidableEq

/-- One mapped search result of `QdrantClient.search_similar`:
`{"id": hit.id, "score": hit.score, "payload": hit.payload}`. -/
structure SearchHit where
  id : String
  score : ℚ
  payload : Payload
  deriving Repr, DecidableEq

/-! ### Reciprocal Rank Fusion (`src/agent/nodes/retrieve.py`, lines 22-45)

Python builds a `defaultdict(float)`; we model it as an association list in
insertion order, `bumpScore` being `scores[doc_id] += x`. -/

/-- Model of `scores[doc_id] += x` on a `defaultdict(float)` kept as an association
list in insertion order (new keys are appended at the end). -/
def bumpScore : List (String × ℚ) → String → ℚ → List (String × ℚ)
  | [], d, x => [(d, x)]
  | (a, v) :: rest, d, x =>
    if a = d then (a, v + x) :: rest else (a, v) :: bumpScore rest d x

/-- Inner loop of `reciprocal_rank_fusion`:
`for rank, result in enumerate(results, start=1): scores[doc_id] += 1.0 / (k + rank)`. -/
def rrfAddList (k : ℚ) : List (String × ℚ) → List SearchHit → ℕ → List (String × ℚ)
  | m, [], _ => m
  | m, r :: rest, rank => rrfAddList k (bumpScore m r.id (1 / (k + rank))) rest (rank + 1)

/-- The score dictionary built by `reciprocal_rank_fusion` before sorting. -/
def rrfMap (results_per_query : List (List SearchHit)) (k : ℚ) : List (String × ℚ) :=
  results_per_query.foldl (fun m results => rrfAddList k m results 1) []

/-- Model of `reciprocal_rank_fusion(results_per_query, k=60)`: accumulate
`1/(k+rank)` per occurrence and return the items sorted by score
descending (`sorted(..., reverse=True)`, stable like Python's sort). -/
def reciprocal_rank_fusion (results_per_query : List (List SearchHit)) (k : ℚ) :
    List (String × ℚ) :=
  (rrfMap results_per_query k).insertionSort (fun a b => b.2 ≤ a.2)

/-- Dictionary lookup with the `defaultdict` default `0.0`: the fused score
assigned to document `d`. -/
def scoreOf : List (String × ℚ) → String → ℚ
  | [], _ => 0
  | (a, v) :: rest, d => if a = d then v else scoreOf rest d

/-- The keys of an association list, in order. -/
def keysList : List (String × ℚ) → List String
  | [] => []
  | (a, _) :: rest => a :: keysList rest

/-- Spec-side formula for the contribution of one ranked list, ranks
counted from `rank`: at each position whose id is `d`, add `1/(k+rank)`. -/
def specContribFrom (k : ℚ) (d : String) : ℕ → List SearchHit → ℚ
  | _, [] => 0
  | rank, r :: rest =>
    (if r.id = d then 1 / (k + rank) else 0) + specContribFrom k d (rank + 1) rest

/-- Spec-side formula for the fused score of document `d`: the sum over all
query result lists of the per-list contributions (1-based ranks). -/
def specRRFScore (k : ℚ) (d : String) (rpq : List (List SearchHit)) : ℚ :=
  (rpq.map (specContribFrom k d 1)).sum

/-- The 1-based rank of document `d` in a ranked list. -/
def rankIn (l : List SearchHit) (d : String) : ℕ :=
  (l.map SearchHit.id).indexOf d + 1

/-- Spec-side formula in the claim's own wording: sum `1/(k+r)` over every
query result list in which `d` appears, `r` its 1-based rank there. -/
def specRankSum (k : ℚ) (d : String) (rpq : List (List SearchHit)) : ℚ :=
  ((rpq.filter (fun l => decide (d ∈ l.map SearchHit.id))).map
    (fun l => 1 / (k + (rankIn l d : ℚ)))).sum

/-! ### Scenario A of the spec (two queries returning `[A,B,C]` and `[B,A,D]`) -/

/-- Document `A` as returned by a search (only the id matters for fusion). -/
def hitA : SearchHit := ⟨"A", 0, {}⟩

/-- Document `B` as returned by a search. -/
def hitB : SearchHit := ⟨"B", 0, {}⟩

/-- Document `C` as returned by a search. -/
def hitC : SearchHit := ⟨"C", 0, {}⟩

/-- Document `D` as returned by a search. -/
def hitD : SearchHit := ⟨"D", 0, {}⟩

/-- The two ranked per-query result lists of Scenario A: `[A,B,C]` and `[B,A,D]`. -/
def scenarioLists : List (List SearchHit) := [[hitA, hitB, hitC], [hitB, hitA, hitD]]

/-! ### The retrieval node (`src/agent/nodes/retrieve.py`, lines 148-244)

The embedder and the store search are oracles returning `Except`: an
`Except.error` models a raised exception. -/

/-- A retrieved context dict built by `retrieve_context_node`. -/
structure ContextItem where
  content : String
  source_msg_uid : String
  timestamp : Option String
  score : ℚ
  description : String
  examples : String
  deriving Repr, DecidableEq

/-- Model of `find_document_by_id` (retrieve.py lines 48-66): the first hit carrying
the given id, scanning the per-query result lists in order. -/
def find_document_by_id : List (List SearchHit) → String → Option SearchHit
  | [], _ => none
  | results :: rest, doc_id =>
    match results.find? (fun doc => doc.id == doc_id) with
    | some doc => some doc
    | none => find_document_by_id rest doc_id

/-- Model of `payload.get("message_id") or "unknown"` (retrieve.py line 196): Python's
`or` replaces a missing or empty id by `"unknown"`. -/
def effMessageId (p : Payload) : String :=
  match p.message_id with
  | some m => if m = "" then "unknown" else m
  | none => "unknown"

/-- The dedup-and-cap loop of `retrieve_context_node` (retrieve.py lines
180-220): walk the fused entries, resolve each doc id, skip entries whose
message id was already seen or whose fact is empty, and stop as soon as 10
context items have been collected. -/
def dedupContextLoop (rpq : List (List SearchHit)) :
    List (String × ℚ) → List String → ℕ → List ContextItem
  | [], _, _ => []
  | (doc_id, rrf_score) :: rest, seen, n =>
    match find_document_by_id rpq doc_id with
    | none => dedupContextLoop rpq rest seen n
    | some doc =>
      let message_id := effMessageId doc.payload
      if message_id ∈ seen then dedupContextLoop rpq rest seen n
      else if doc.payload.fact = "" then dedupContextLoop rpq rest seen n
      else
        let item : ContextItem :=
          { content := doc.payload.fact, source_msg_uid := message_id,
            timestamp := doc.payload.timestamp, score := rrf_score,
            description := doc.payload.description, examples := doc.payload.examples }
        if 10 ≤ n + 1 then [item]
        else item :: dedupContextLoop rpq rest (message_id :: seen) (n + 1)

/-- Fusion followed by the dedup loop over the top-15 fused entries
(`for doc_id, rrf_score in fused_results[:15]`), starting with no seen
message ids and an empty output. -/
def buildContext (rpq : List (List SearchHit)) : List ContextItem :=
  dedupContextLoop rpq ((reciprocal_rank_fusion rpq 60).take 15) [] 0

/-- The per-query loop of `retrieve_context_node` (retrieve.py lines
153-174): embed each query and search the store with it; the whole loop
sits inside a single `try`, so the first exception aborts every query. -/
def runQueries (embed : String → Except String Vec)
    (search : Vec → Except String (List SearchHit)) :
    List String → Except String (List (List SearchHit))
  | [] => Except.ok []
  | q :: rest =>
    match embed q with
    | Except.error e => Except.error e
    | Except.ok v =>
      match search v with
      | Except.error e => Except.error e
      | Except.ok hits =>
        match runQueries embed search rest with
        | Except.error e => Except.error e
        | Except.ok more => Except.ok (hits :: more)

/-- Model of `retrieve_context_node` after query construction (retrieve.py lines
148-244, reranker disabled): any exception raised during the per-query loop
or fusion is caught by the node's `except`, which returns an empty context. -/
def retrieve_context_model (embed : String → Except String Vec)
    (search : Vec → Except String (List SearchHit)) (queries : List String) :
    List ContextItem :=
  match runQueries embed search queries with
  | Except.error _ => []
  | Except.ok results_per_query => buildContext results_per_query

/-! ### Failure semantics of the retrieval node (claim C5) -/

/-- An embedder that raises on query `"q2"` and succeeds elsewhere. -/
def embedFail2 : String → Except String Vec :=
  fun q => if q = "q2" then Except.error "embedding failed" else Except.ok [1]

/-- The single hit the store returns in the C5 scenario. -/
def hitQ1 : SearchHit := ⟨"doc1", 0, { fact := "fact one", message_id := some "m1" }⟩

/-- A store search that always succeeds with one relevant hit. -/
def searchConst : Vec → Except String (List SearchHit) :=
  fun _ => Except.ok [hitQ1]

/-! ### The fact store (`src/clients/qdrant_client.py`)

The Qdrant server itself is an external collaborator; the store state and
the semantics of `set_payload` / filtered `query_points` / retrieval by id
below are modelled from the spec's Fact Store Adapter contract, while
`set_relevance_by_record_id` and `search_similar` translate the wrapper
code that builds the filter and the payload update. -/

/-- Modelled from the spec: one stored point of the fact collection, a
fixed-dimension vector plus payload. -/
structure Point where
  id : String
  vector : Vec
  payload : Payload
  deriving Repr, DecidableEq

/-- Modelled from the spec: the external store is a single collection of
points. -/
abbrev Store := List Point

/-- Model of `set_relevance_by_record_id` (qdrant_client.py lines 162-178):
`set_payload({"is_relevant": b}, points=[point_id])` — it updates only the
`is_relevant` key of the payload of the point with the given id and never
removes a point. The wrapper's `uuid.UUID(record_id)` parse always succeeds
for an id that is actually a stored point id, so ids are kept opaque
strings here. -/
def set_relevance_by_record_id (s : Store) (record_id : String) (b : Bool) : Store :=
  s.map (fun p => if p.id = record_id
    then { p with payload := { p.payload with is_relevant := b } } else p)

/-- Model of `search_similar` (qdrant_client.py lines 180-226): with
`only_relevant=True` the query carries the filter `is_relevant == True`;
the store scores the filtered points against the query vector with its
similarity `sim`, returns the `top_k` best, and the wrapper maps each hit
to an `{id, score, payload}` dict. -/
def search_similar (sim : Vec → Vec → ℚ) (s : Store) (query_vector : Vec)
    (top_k : ℕ) (only_relevant : Bool) : List SearchHit :=
  let pts := if only_relevant then s.filter (fun p => p.payload.is_relevant) else s
  let hits := pts.map (fun p =>
    ({ id := p.id, score := sim query_vector p.vector, payload := p.payload } : SearchHit))
  (hits.insertionSort (fun a b => b.score ≤ a.score)).take top_k

/-- Modelled from the spec: fetching a record by its id (the audit-trail
read the soft-delete invariant refers to). -/
def fetchById (s : Store) (record_id : String) : Option Point :=
  s.find? (fun p => p.id == record_id)

/-- Model of `insert_record` (qdrant_client.py lines 94-126): upsert of one new
point under a freshly generated id. -/
def insert_record (s : Store) (p : Point) : Store := s ++ [p]

/-- A subsequent write to the store: a new-record insert or a relevance
flip (the only two writes the nodes perform). -/
inductive StoreOp where
  | insert (p : Point)
  | setRel (record_id : String) (b : Bool)

/-- Apply one store operation. -/
def applyOp (s : Store) : StoreOp → Store
  | StoreOp.insert p => insert_record s p
  | StoreOp.setRel rid b => set_relevance_by_record_id s rid b

/-- Operations that do not target record `rid`: inserts of other records
and relevance flips of other records. -/
def opAvoids (rid : String) : StoreOp → Prop
  | StoreOp.insert p => p.id ≠ rid
  | StoreOp.setRel rid' _ => rid' ≠ rid

/-- All points carrying id `rid` are soft-deleted in `s`. -/
def noRelevantRecord (s : Store) (rid : String) : Prop :=
  ∀ p ∈ s, p.id = rid → p.payload.is_relevant = false

/-- A constant similarity, used to instantiate store theorems. -/
def simZero : Vec → Vec → ℚ := fun _ _ => 0

/-- A concrete stored fact record. -/
def ptR1 : Point := ⟨"r1", [1], { fact := "f1" }⟩

/-- Another concrete fact record, inserted later. -/
def ptR2 : Point := ⟨"r2", [1], { fact := "f2" }⟩

/-- Later store writes that do not target record `"r1"`. -/
def opsC9 : List StoreOp := [StoreOp.insert ptR2, StoreOp.setRel "r3" false]

/-! ### Conflict checking over the store (`src/agent/nodes/check_conflicts.py`) -/

/-- One entry of `similar_facts` as built by `_extract_similar_facts`. -/
structure SimilarFact where
  fact : String
  message_id : Option String
  record_id : String
  deriving Repr, DecidableEq

/-- Model of `_extract_similar_facts` (check_conflicts.py lines 22-32): keep hits
with a non-empty fact; the record id is the payload's `record_id`, falling
back to the point id when missing or empty (Python's `or`). -/
def _extract_similar_facts (results : List SearchHit) : List SimilarFact :=
  results.filterMap (fun item =>
    let record_id := match item.payload.record_id with
      | some r => if r = "" then item.id else r
      | none => item.id
    if item.payload.fact ≠ "" ∧ record_id ≠ "" then
      some { fact := item.payload.fact, message_id := item.payload.message_id,
             record_id := record_id }
    else none)

/-- Model of `message_fact_map` (check_conflicts.py lines 86-88) as a lookup: a dict
comprehension keeps the last occurrence per key. -/
def message_fact_lookup (sf : List SimilarFact) (rid : String) : Option String :=
  (sf.reverse.find? (fun i => i.record_id == rid)).map SimilarFact.fact

/-- The flag-flipping loop of `check_conflicts_node` (lines 131-152): each
classifier-returned id is stripped; empty ids and ids that are not among
the fetched neighbours are skipped with a warning; the rest are marked
irrelevant in the store and reported. -/
def applyConflictMarks (sf : List SimilarFact) :
    Store × List (String × String) → List String → Store × List (String × String)
  | acc, [] => acc
  | (st, rep), cid :: rest =>
    let cid_clean := pyStrip cid
    if cid_clean = "" then applyConflictMarks sf (st, rep) rest
    else if cid_clean ∈ sf.map SimilarFact.record_id then
      applyConflictMarks sf
        (set_relevance_by_record_id st cid_clean false,
         rep ++ [(cid_clean, (message_fact_lookup sf cid_clean).getD "")]) rest
    else applyConflictMarks sf (st, rep) rest

/-- One `memory_updates` iteration of `check_conflicts_node` (lines 63-152):
embed the update, fetch its top-3 `is_relevant=true` neighbours, ask the
classifier — an oracle returning the parsed `conflicts` id list, `[]` also
covering LLM or parse failures — and flip the flagged neighbours. -/
def check_conflicts_update (sim : Vec → Vec → ℚ) (embed : String → Vec)
    (classify : String → List SimilarFact → List String)
    (s : Store) (update_text : String) : Store × List (String × String) :=
  let vector := embed update_text
  let results := search_similar sim s vector 3 true
  let similar_facts := _extract_similar_facts results
  if similar_facts = [] then (s, [])
  else applyConflictMarks similar_facts (s, []) (classify update_text similar_facts)

/-! ### The contradiction classifier (`src/agent/helpers.py::check_contradiction`)
and its threshold (claim C2) -/

/-- The classifier's parsed JSON verdict, fields read with `result.get`
(helpers.py lines 215-218). -/
structure ClassifierVerdict where
  is_conflict : Bool
  confidence : ℚ
  conflict_type : String
  deriving Repr, DecidableEq

/-- The decision core of `check_contradiction` (helpers.py lines 197-240):
`none` models an LLM call or JSON-parse failure, which returns
`(False, 0.0, "error")`; otherwise a confidence strictly below the
threshold downgrades the verdict to no-conflict regardless of the boolean
flag (lines 225-230). -/
def check_contradiction (verdict : Option ClassifierVerdict) (threshold : ℚ) :
    Bool × ℚ × String :=
  match verdict with
  | none => (false, 0, "error")
  | some v =>
    if v.confidence < threshold then (false, v.confidence, v.conflict_type)
    else (v.is_conflict, v.confidence, v.conflict_type)

/-- The default `threshold` argument of `check_contradiction` (0.7). -/
def defaultThreshold : ℚ := mkRat 7 10

/-- One (new fact, neighbour) pair inside `check_conflicts_node` of
`conflicts.py` (lines 64-102): neighbours whose stripped content is shorter
than 5 characters are skipped, then `check_contradiction` decides; only a
positive verdict reports a conflict. -/
def pairConflict (old_content : String) (verdict : Option ClassifierVerdict)
    (threshold : ℚ) : Bool :=
  if (pyStrip old_content).length < 5 then false
  else (check_contradiction verdict threshold).1

/-- The `(record_id, fact)` conflict entries this one pair contributes
(the shape `resolve_conflicts_node` consumes). -/
def pairConflictList (record_id old_content : String)
    (verdict : Option ClassifierVerdict) (threshold : ℚ) : List (String × String) :=
  if pairConflict old_content verdict threshold then [(record_id, old_content)] else []

/-- Model of `resolve_conflicts_node` (resolve_conflicts.py lines 22-43): flip
`is_relevant=False` on each reported conflicting record id. -/
def resolve_conflicts (s : Store) (conflicts : List (String × String)) : Store :=
  conflicts.foldl (fun st c => set_relevance_by_record_id st c.1 false) s

/-! ### The ReAct loop (`src/agent/nodes/react.py`)

The LLM is an oracle `gen : ℕ → Option ReactThought` giving the raw
structured output attempted at each iteration (`none` = the call failed);
the embed-plus-store search behind the search tool is an oracle
`backend : String → Except String (List SearchHit)`. -/

/-- Model of `ActionType` (react.py lines 28-31). -/
inductive ActionType where
  | answer
  | search
  deriving Repr, DecidableEq

/-- Model of `ReactThought` (react.py lines 34-66), as raw structured output before
validation. -/
structure ReactThought where
  thought : String
  action : ActionType
  tool_name : Option String := none
  tool_input : Option String := none
  deriving Repr, DecidableEq

/-- The pydantic validation of `ReactThought`: the field bounds (`thought`
5-500 characters, `tool_input` 3-200 characters) plus `validate_tool_input`
(react.py lines 58-66), which requires a non-blank `tool_input` whenever
the action is not `answer`. -/
def reactThoughtValid (t : ReactThought) : Bool :=
  decide (5 ≤ t.thought.length) && decide (t.thought.length ≤ 500)
    && (match t.tool_input with
        | none => true
        | some ti => decide (3 ≤ ti.length) && decide (ti.length ≤ 200))
    && (match t.action with
        | ActionType.answer => true
        | ActionType.search =>
          match t.tool_input with
          | none => false
          | some ti => decide (pyStrip ti ≠ ""))

/-- Normalisation applied by `validate_tool_input`: it returns `v.strip() if v else None`: the stored
`tool_input` of a validated thought is the stripped string. -/
def applyValidatorStrip (t : ReactThought) : ReactThought :=
  { t with tool_input := match t.tool_input with
      | some v => if v = "" then none else some (pyStrip v)
      | none => none }

/-- Model of `ReactAgent.generate_thought` (react.py lines 352-377): the LLM oracle
may fail (`none`), and a raw output violating the model validation raises
inside `generate_async`; both exceptions are caught and yield `None`. -/
def generate_thought (gen : ℕ → Option ReactThought) (iteration : ℕ) :
    Option ReactThought :=
  match gen iteration with
  | none => none
  | some t => if reactThoughtValid t then some (applyValidatorStrip t) else none

/-- One formatted result dict built by `SearchTool.execute`
(react.py lines 156-168). -/
structure ReactCtx where
  content : String
  score : ℚ
  source_msg_uid : String
  timestamp : Option String
  deriving Repr, DecidableEq

/-- The `or`-chain `payload.get("messageid") or payload.get("record_id") or
"unknown"` of react.py line 162: no writer ever stores a `messageid` key
(they store `message_id`), so the chain falls through to `record_id` and
then `"unknown"`. -/
def reactSourceMsgUid (p : Payload) : String :=
  match p.record_id with
  | some r => if r = "" then "unknown" else r
  | none => "unknown"

/-- Stand-in for Python's `f"{score:.2f}"` rendering in
`format_search_results`; the rendered text never influences control flow. -/
def fmtScore2 (q : ℚ) : String := toString q

/-- Model of `format_search_results` (helpers.py lines 76-101): numbered entries
with the score and a 200-character content preview, or a fixed string when
empty. -/
def format_search_results (results : List ReactCtx) : String :=
  if results = [] then "Нічого не знайдено"
  else
    String.intercalate "\n"
      ((List.enumFrom 1 results).map (fun p =>
        toString p.1 ++ ". [score: " ++ fmtScore2 p.2.score ++ "] "
          ++ (if p.2.content.length > 200 then pyTake p.2.content 200 ++ "..."
              else p.2.content)))

/-- Model of `ToolResult` (react.py lines 85-90). -/
structure ToolResult where
  success : Bool
  observation : String
  data : Option (List ReactCtx) := none
  deriving Repr, DecidableEq

/-- Python's substring test `pat in s`. -/
def containsSub (s pat : String) : Bool := decide (pat.toList <:+: s.toList)

/-- Model of `SearchTool.execute` (react.py lines 130-184): normalise the query
(`strip().lower()`); a repeated query returns the failed duplicate result
without touching the store; otherwise the query is added to
`searched_queries` and the embed-plus-search backend runs, with its
exception caught into a failed result. The third component records the
store lookups attempted by this call. -/
def searchToolExecute (backend : String → Except String (List SearchHit))
    (searched_queries : List String) (tool_input : String) :
    ToolResult × List String × List String :=
  let query := pyLower (pyStrip tool_input)
  if query ∈ searched_queries then
    ({ success := false,
       observation := "Query '" ++ tool_input ++ "' already used. Try different keywords.",
       data := none }, searched_queries, [])
  else
    let sq := query :: searched_queries
    match backend tool_input with
    | Except.ok search_results =>
      let formatted_results := search_results.map (fun hit =>
        ({ content := hit.payload.fact, score := hit.score,
           source_msg_uid := reactSourceMsgUid hit.payload,
           timestamp := hit.payload.timestamp } : ReactCtx))
      ({ success := true, observation := format_search_results formatted_results,
         data := some formatted_results }, sq, [tool_input])
    | Except.error e =>
      ({ success := false, observation := "Search error: " ++ e, data := none },
       sq, [tool_input])

/-- Model of `ReactAgent.execute_action` (react.py lines 379-407); the registry of
`react_loop_node` holds exactly the search tool. -/
def execute_action (backend : String → Except String (List SearchHit))
    (searched_queries : List String) (t : ReactThought) :
    ToolResult × List String × List String :=
  match t.action with
  | ActionType.answer =>
    ({ success := true, observation := "Готово до генерації відповіді", data := none },
     searched_queries, [])
  | ActionType.search =>
    match t.tool_name with
    | none =>
      ({ success := false, observation := "No tool specified for non-answer action",
         data := none }, searched_queries, [])
    | some name =>
      if name = "search" then
        searchToolExecute backend searched_queries (t.tool_input.getD "")
      else
        ({ success := false, observation := "Unknown tool: " ++ name, data := none },
         searched_queries, [])

/-- Model of `ReactStep` (react.py lines 69-78). -/
structure ReactStep where
  iteration : ℕ
  thought : String
  action : ActionType
  tool_name : Option String := none
  tool_input : Option String := none
  observation : String
  success : Bool := true
  deriving Repr, DecidableEq

/-- The fallback step appended when thought generation fails
(react.py lines 443-449), after which the loop breaks. -/
def invalidFallbackStep (iteration : ℕ) : ReactStep :=
  { iteration := iteration,
    thought := "Не вдалося згенерувати думку, відповідаю з наявним контекстом",
    action := ActionType.answer,
    observation := "Готово до генерації відповіді",
    success := false }

/-- The outcome of `ReactAgent.run`: the step trace, the accumulated
context, and the queries for which a store search was attempted. -/
structure RunResult where
  steps : List ReactStep
  context : List ReactCtx
  searchLog : List String
  deriving Repr, DecidableEq

/-- The body of `ReactAgent.run`'s `for iteration in range(max_iterations)`
loop (react.py lines 423-480), with `fuel` remaining iterations: generate a
thought (fall back to an answer step and stop on failure), execute the
action, record the step, extend the context with returned data, and stop on
an answer action or on the duplicate-query observation. -/
def runLoop (gen : ℕ → Option ReactThought)
    (backend : String → Except String (List SearchHit)) :
    ℕ → ℕ → List ReactStep → List ReactCtx → List String → List String → RunResult
  | 0, _, steps, ctx, _, log => ⟨steps, ctx, log⟩
  | fuel + 1, iteration, steps, ctx, searched_queries, log =>
    match generate_thought gen iteration with
    | none => ⟨steps ++ [invalidFallbackStep (iteration + 1)], ctx, log⟩
    | some t =>
      match execute_action backend searched_queries t with
      | (result, sq, calls) =>
        let step : ReactStep :=
          { iteration := iteration + 1, thought := t.thought, action := t.action,
            tool_name := t.tool_name, tool_input := t.tool_input,
            observation := result.observation, success := result.success }
        let steps' := steps ++ [step]
        let ctx' := match result.data with
          | some d => ctx ++ d
          | none => ctx
        let log' := log ++ calls
        match t.action with
        | ActionType.answer => ⟨steps', ctx', log'⟩
        | ActionType.search =>
          if !result.success && containsSub result.observation "already used" then
            ⟨steps', ctx', log'⟩
          else runLoop gen backend fuel (iteration + 1) steps' ctx' sq log'

/-- Model of `ReactAgent.run` (react.py lines 409-485). -/
def ReactAgent_run (gen : ℕ → Option ReactThought)
    (backend : String → Except String (List SearchHit))
    (max_iterations : ℕ) (initial_context : List ReactCtx) : RunResult :=
  runLoop gen backend max_iterations 0 [] initial_context [] []

/-- The default iteration budget (`max_iterations: int = 3` in
`ReactAgent.__init__`, and `getattr(settings, 'max_react_iterations', 3)`
in `react_loop_node`). -/
def defaultMaxIterations : ℕ := 3

/-- A recorded step after which the Python loop proceeds to the next
iteration: a search action that did not hit the duplicate-query break. -/
def stepContinues (step : ReactStep) : Bool :=
  (step.action == ActionType.search)
    && !(!step.success && containsSub step.observation "already used")

/-- A thought that repeatedly proposes the same search query. -/
def repeatThought : ReactThought :=
  { thought := "Need to look this up in memory", action := ActionType.search,
    tool_name := some "search", tool_input := some "capital" }

/-- An LLM oracle that proposes the same search query at every iteration. -/
def genRepeat : ℕ → Option ReactThought := fun _ => some repeatThought

/-- A store backend whose searches succeed with no hits. -/
def backendEmpty : String → Except String (List SearchHit) := fun _ => Except.ok []

/-- Claim-side notion for C8: the string contains at least one
alphanumeric character — equivalently, some whitespace-separated token is
not pure punctuation. -/
def specHasNonPunctuationToken (s : String) : Bool :=
  s.data.any Char.isAlphanum

/-- A thought proposing the all-punctuation search query `"???"`. -/
def punctThought : ReactThought :=
  { thought := "Need to search for this", action := ActionType.search,
    tool_name := some "search", tool_input := some "???" }

/-- An LLM oracle whose first thought proposes the all-punctuation query
`"???"` and whose second answers. -/
def genPunct : ℕ → Option ReactThought :=
  fun i =>
    if i = 0 then some punctThought
    else some { thought := "Context is sufficient now", action := ActionType.answer }

/-- A stored document used to instantiate the dedup theorem. -/
def hitM1 : SearchHit := ⟨"x", 0, { fact := "fx", message_id := some "m" }⟩

/-- A second document sharing `hitM1`'s message id. -/
def hitM2 : SearchHit := ⟨"y", 0, { fact := "fy", message_id := some "m" }⟩

/-- One query returning two documents from the same source message. -/
def rpqC7 : List (List SearchHit) := [[hitM1, hitM2]]

/-- The single context item the dedup loop keeps for `rpqC7`. -/
def itemC7 : ContextItem :=
  { content := "fx", source_msg_uid := "m", timestamp := none, score := 1/61,
    description := "", examples := "" }

theorem scoreOf_bumpScore (m : List (String × ℚ)) (d e : String) (x : ℚ) :
    scoreOf (bumpScore m d x) e = scoreOf m e + (if e = d then x else 0) := by
  induction m with
  | nil =>
    by_cases h : e = d
    · subst h
      simp [bumpScore, scoreOf]
    · have h' : ¬ d = e := fun hh => h hh.symm
      simp [bumpScore, scoreOf, h, h']
  | cons p rest ih =>
    obtain ⟨a, v⟩ := p
    by_cases had : a = d
    · subst had
      by_cases hea : e = a
      · subst hea
        simp [bumpScore, scoreOf]
      · have h1 : ¬ a = e := fun hh => hea hh.symm
        simp [bumpScore, scoreOf, h1, hea]
    · by_cases hae : a = e
      · subst hae
        have hed : ¬ a = d := had
        have hed' : ¬ (a : String) = d := had
        simp [bumpScore, scoreOf, had, hed']
      · simp [bumpScore, scoreOf, had, hae, ih]

theorem scoreOf_rrfAddList (k : ℚ) (e : String) :
    ∀ (results : List SearchHit) (m : List (String × ℚ)) (rank : ℕ),
      scoreOf (rrfAddList k m results rank) e
        = scoreOf m e + specContribFrom k e rank results := by
  intro results
  induction results with
  | nil =>
    intro m rank
    simp [rrfAddList, specContribFrom]
  | cons r rest ih =>
    intro m rank
    have hswap : (if e = r.id then (1 : ℚ) / (k + rank) else 0)
        = (if r.id = e then (1 : ℚ) / (k + rank) else 0) := by
      by_cases h : e = r.id
      · subst h; simp
      · have h' : ¬ r.id = e := fun hh => h hh.symm
        simp [h, h']
    simp only [rrfAddList, specContribFrom, ih, scoreOf_bumpScore]
    rw [hswap]
    ring

theorem scoreOf_rrfMap (k : ℚ) (e : String) :
    ∀ (rpq : List (List SearchHit)) (m : List (String × ℚ)),
      scoreOf (rpq.foldl (fun m results => rrfAddList k m results 1) m) e
        = scoreOf m e + (rpq.map (specContribFrom k e 1)).sum := by
  intro rpq
  induction rpq with
  | nil => intro m; simp
  | cons l rest ih =>
    intro m
    simp only [List.foldl_cons, List.map_cons, List.sum_cons, ih, scoreOf_rrfAddList]
    ring

theorem keysList_eq_map (m : List (String × ℚ)) : keysList m = m.map Prod.fst := by
  induction m with
  | nil => rfl
  | cons p rest ih =>
    obtain ⟨a, v⟩ := p
    simp [keysList, ih]

/-- Keys occurring after a `bumpScore` come from the old keys or the bumped key. -/
theorem mem_keysList_bumpScore {m : List (String × ℚ)} {d e : String} {x : ℚ}
    (h : e ∈ keysList (bumpScore m d x)) : e ∈ keysList m ∨ e = d := by
  induction m with
  | nil =>
    simp [bumpScore, keysList] at h
    exact Or.inr h
  | cons p rest ih =>
    obtain ⟨a, v⟩ := p
    by_cases had : a = d
    · subst had
      have heq : keysList (bumpScore ((a, v) :: rest) a x) = a :: keysList rest := by
        simp [bumpScore, keysList]
      rw [heq] at h
      exact Or.inl h
    · have heq : keysList (bumpScore ((a, v) :: rest) d x)
          = a :: keysList (bumpScore rest d x) := by
        simp [bumpScore, keysList, had]
      rw [heq] at h
      rcases List.mem_cons.mp h with h' | h'
      · exact Or.inl (List.mem_cons.mpr (Or.inl h'))
      · rcases ih h' with h'' | h''
        · exact Or.inl (List.mem_cons.mpr (Or.inr h''))
        · exact Or.inr h''

/-- Lemma: `bumpScore` preserves distinctness of keys. -/
theorem nodup_keysList_bumpScore {m : List (String × ℚ)} (d : String) (x : ℚ)
    (h : (keysList m).Nodup) : (keysList (bumpScore m d x)).Nodup := by
  induction m with
  | nil => simp [bumpScore, keysList]
  | cons p rest ih =>
    obtain ⟨a, v⟩ := p
    have h' : (a :: keysList rest).Nodup := h
    rcases List.nodup_cons.mp h' with ⟨hna, hrest⟩
    by_cases had : a = d
    · subst had
      have heq : keysList (bumpScore ((a, v) :: rest) a x) = a :: keysList rest := by
        simp [bumpScore, keysList]
      rw [heq]
      exact List.nodup_cons.mpr ⟨hna, hrest⟩
    · have heq : keysList (bumpScore ((a, v) :: rest) d x)
          = a :: keysList (bumpScore rest d x) := by
        simp [bumpScore, keysList, had]
      rw [heq]
      refine List.nodup_cons.mpr ⟨?_, ih hrest⟩
      intro hmem
      rcases mem_keysList_bumpScore hmem with hcase | hcase
      · exact hna hcase
      · exact had hcase

theorem nodup_keysList_rrfAddList (k : ℚ) :
    ∀ (results : List SearchHit) (m : List (String × ℚ)) (rank : ℕ),
      (keysList m).Nodup → (keysList (rrfAddList k m results rank)).Nodup := by
  intro results
  induction results with
  | nil =>
    intro m rank h
    simpa [rrfAddList] using h
  | cons r rest ih =>
    intro m rank h
    exact ih _ _ (nodup_keysList_bumpScore _ _ h)

theorem nodup_keysList_rrfMap (rpq : List (List SearchHit)) (k : ℚ) :
    (keysList (rrfMap rpq k)).Nodup := by
  suffices h : ∀ (rpq : List (List SearchHit)) (m : List (String × ℚ)),
      (keysList m).Nodup →
      (keysList (rpq.foldl (fun m results => rrfAddList k m results 1) m)).Nodup by
    exact h rpq [] (by simp [keysList])
  intro rpq
  induction rpq with
  | nil =>
    intro m h
    simpa using h
  | cons l rest ih =>
    intro m h
    exact ih _ (nodup_keysList_rrfAddList k l m 1 h)

/-- Lemma: `scoreOf` is invariant under permutations of an association list with
distinct keys. -/
theorem scoreOf_perm {l l' : List (String × ℚ)} (h : l.Perm l')
    (hn : (keysList l).Nodup) (e : String) : scoreOf l e = scoreOf l' e := by
  induction h with
  | nil => rfl
  | cons p h ih =>
    obtain ⟨a, v⟩ := p
    have hn' : (a :: keysList _).Nodup := hn
    rcases List.nodup_cons.mp hn' with ⟨_, hrest⟩
    simp [scoreOf, ih hrest]
  | swap p q rest =>
    obtain ⟨a, v⟩ := p
    obtain ⟨b, w⟩ := q
    have hn' : (b :: a :: keysList rest).Nodup := hn
    rcases List.nodup_cons.mp hn' with ⟨hb, hn''⟩
    have hab : ¬ b = a := fun hh => hb (by simp [hh])
    by_cases hbe : b = e
    · subst hbe
      have : ¬ a = b := fun hh => hab hh.symm
      simp [scoreOf, this]
    · by_cases hae : a = e <;> simp [scoreOf, hae, hbe]
  | trans h₁ h₂ ih₁ ih₂ =>
    refine (ih₁ hn).trans (ih₂ ?_)
    rw [keysList_eq_map] at hn ⊢
    exact ((h₁.map Prod.fst).nodup_iff).mp hn

/-- The score a document receives from the sorted fused output equals the
score in the underlying dictionary. -/
theorem scoreOf_reciprocal_rank_fusion (rpq : List (List SearchHit)) (k : ℚ) (d : String) :
    scoreOf (reciprocal_rank_fusion rpq k) d = scoreOf (rrfMap rpq k) d := by
  have hperm := List.perm_insertionSort (fun a b : String × ℚ => b.2 ≤ a.2) (rrfMap rpq k)
  have hn : (keysList (reciprocal_rank_fusion rpq k)).Nodup := by
    rw [keysList_eq_map]
    have := nodup_keysList_rrfMap rpq k
    rw [keysList_eq_map] at this
    exact ((hperm.map Prod.fst).nodup_iff).mpr this
  exact scoreOf_perm hperm hn d

/-- Characterisation of the fused score by the spec formula. -/
theorem rrf_score_eq_spec (rpq : List (List SearchHit)) (k : ℚ) (d : String) :
    scoreOf (reciprocal_rank_fusion rpq k) d = specRRFScore k d rpq := by
  rw [scoreOf_reciprocal_rank_fusion]
  have h := scoreOf_rrfMap k d rpq []
  simpa [rrfMap, specRRFScore, scoreOf] using h

theorem specContribFrom_of_not_mem (k : ℚ) (d : String) :
    ∀ (l : List SearchHit) (rank : ℕ), d ∉ l.map SearchHit.id →
      specContribFrom k d rank l = 0 := by
  intro l
  induction l with
  | nil => intro rank _; rfl
  | cons r rest ih =>
    intro rank h
    rw [List.map_cons] at h
    have h1 : ¬ r.id = d := fun hh => h (by rw [hh]; exact List.mem_cons_self _ _)
    have h2 : d ∉ rest.map SearchHit.id := fun hh => h (List.mem_cons_of_mem _ hh)
    simp [specContribFrom, h1, ih _ h2]

theorem specContribFrom_of_nodup (k : ℚ) (d : String) :
    ∀ (l : List SearchHit) (rank : ℕ), (l.map SearchHit.id).Nodup →
      specContribFrom k d rank l
        = if d ∈ l.map SearchHit.id
            then 1 / (k + (((l.map SearchHit.id).indexOf d + rank : ℕ) : ℚ))
            else 0 := by
  intro l
  induction l with
  | nil => intro rank _; simp [specContribFrom]
  | cons r rest ih =>
    intro rank hn
    rw [List.map_cons] at hn
    rcases List.nodup_cons.mp hn with ⟨hrid, hrest⟩
    by_cases hrd : r.id = d
    · subst hrd
      have hnot : r.id ∉ rest.map SearchHit.id := hrid
      simp [specContribFrom, specContribFrom_of_not_mem k r.id rest _ hnot,
        List.indexOf_cons_self]
    · have hne : ¬ d = r.id := fun hh => hrd hh.symm
      have hidx : (r.id :: rest.map SearchHit.id).indexOf d
          = (rest.map SearchHit.id).indexOf d + 1 := by
        simp [List.indexOf_cons, hrd]
      by_cases hmem : d ∈ rest.map SearchHit.id
      · simp only [specContribFrom, ih (rank + 1) hrest, List.map_cons]
        simp [hrd, hne, hmem, hidx]
        ring_nf
      · simp only [specContribFrom, ih (rank + 1) hrest, List.map_cons]
        simp [hrd, hne, hmem, hidx]

theorem specRRFScore_eq_specRankSum (k : ℚ) (d : String) :
    ∀ rpq : List (List SearchHit), (∀ l ∈ rpq, (l.map SearchHit.id).Nodup) →
      specRRFScore k d rpq = specRankSum k d rpq := by
  intro rpq
  induction rpq with
  | nil => intro _; rfl
  | cons l rest ih =>
    intro h
    have hl := h l (List.mem_cons_self _ _)
    have hrest := fun l' hl' => h l' (List.mem_cons_of_mem _ hl')
    have hcontrib := specContribFrom_of_nodup k d l 1 hl
    have ihr := ih hrest
    have hexp : specRRFScore k d (l :: rest)
        = specContribFrom k d 1 l + specRRFScore k d rest := by
      simp [specRRFScore]
    rw [hexp, hcontrib, ihr]
    by_cases hmem : d ∈ l.map SearchHit.id
    · rw [if_pos hmem]
      have hfil : specRankSum k d (l :: rest)
          = 1 / (k + (rankIn l d : ℚ)) + specRankSum k d rest := by
        simp only [specRankSum]
        rw [List.filter_cons_of_pos (by simpa using hmem)]
        simp
      rw [hfil]
      simp [rankIn]
    · rw [if_neg hmem]
      have hfil : specRankSum k d (l :: rest) = specRankSum k d rest := by
        simp only [specRankSum]
        rw [List.filter_cons_of_neg (by simpa using hmem)]
      rw [hfil]
      simp

/-- C4, counterexample: in Scenario A (`[A,B,C]` fused with `[B,A,D]`, k=60),
`B` sits at rank 2 of the first list, so its fused score is `1/62 + 1/61`,
not the claimed `1/61 + 1/61`, and it does not exceed `A`'s score — the two
are exactly equal. -/
theorem C4_counterexample :
    scoreOf (reciprocal_rank_fusion scenarioLists 60) "B" ≠ 1/61 + 1/61
    ∧ ¬ (scoreOf (reciprocal_rank_fusion scenarioLists 60) "B"
          > scoreOf (reciprocal_rank_fusion scenarioLists 60) "A") := by
  constructor
  · rw [rrf_score_eq_spec]
    norm_num [specRRFScore, specContribFrom, scenarioLists, hitA, hitB, hitC, hitD,
      (by decide : ¬("A":String) = "B"), (by decide : ¬("C":String) = "B"),
      (by decide : ¬("D":String) = "B")]
  · rw [rrf_score_eq_spec, rrf_score_eq_spec]
    norm_num [specRRFScore, specContribFrom, scenarioLists, hitA, hitB, hitC, hitD,
      (by decide : ¬("A":String) = "B"), (by decide : ¬("C":String) = "B"),
      (by decide : ¬("D":String) = "B"), (by decide : ¬("B":String) = "A"),
      (by decide : ¬("C":String) = "A"), (by decide : ¬("D":String) = "A")]

/-- C4 (amended): for every family of per-query ranked result lists in which
each list mentions a document at most once, the fused score of a document is
the sum of `1/(60+r)` over the lists where it appears, `r` its 1-based rank
there; in Scenario A (`[A,B,C]` and `[B,A,D]`) this gives `B` the score
`1/62 + 1/61`, equal to `A`'s `1/61 + 1/62`, and both exceed the equal
scores `1/63` of `C` and `D`. -/
theorem C4_rrf_fused_score :
    (∀ (rpq : List (List SearchHit)) (d : String),
        (∀ l ∈ rpq, (l.map SearchHit.id).Nodup) →
        scoreOf (reciprocal_rank_fusion rpq 60) d = specRankSum 60 d rpq)
    ∧ scoreOf (reciprocal_rank_fusion scenarioLists 60) "B" = 1/62 + 1/61
    ∧ scoreOf (reciprocal_rank_fusion scenarioLists 60) "A" = 1/61 + 1/62
    ∧ scoreOf (reciprocal_rank_fusion scenarioLists 60) "C" = 1/63
    ∧ scoreOf (reciprocal_rank_fusion scenarioLists 60) "D" = 1/63
    ∧ scoreOf (reciprocal_rank_fusion scenarioLists 60) "B"
        = scoreOf (reciprocal_rank_fusion scenarioLists 60) "A"
    ∧ scoreOf (reciprocal_rank_fusion scenarioLists 60) "A"
        > scoreOf (reciprocal_rank_fusion scenarioLists 60) "C"
    ∧ scoreOf (reciprocal_rank_fusion scenarioLists 60) "C"
        = scoreOf (reciprocal_rank_fusion scenarioLists 60) "D" := by
  refine ⟨?_, ?_, ?_, ?_, ?_, ?_, ?_, ?_⟩
  · intro rpq d hn
    rw [rrf_score_eq_spec]
    exact specRRFScore_eq_specRankSum 60 d rpq hn
  all_goals rw [rrf_score_eq_spec]
  all_goals try rw [rrf_score_eq_spec]
  all_goals norm_num [specRRFScore, specContribFrom, scenarioLists, hitA, hitB, hitC, hitD,
    (by decide : ¬("A":String) = "B"), (by decide : ¬("C":String) = "B"),
    (by decide : ¬("D":String) = "B"), (by decide : ¬("B":String) = "A"),
    (by decide : ¬("C":String) = "A"), (by decide : ¬("D":String) = "A"),
    (by decide : ¬("A":String) = "C"), (by decide : ¬("B":String) = "C"),
    (by decide : ¬("D":String) = "C"), (by decide : ¬("A":String) = "D"),
    (by decide : ¬("B":String) = "D"), (by decide : ¬("C":String) = "D")]

/-- Witness for `C4_rrf_fused_score`: its universally quantified part applied
to the Scenario A lists, whose per-list ids are distinct. -/
theorem C4_rrf_fused_score_witness :
    (∀ l ∈ scenarioLists, (l.map SearchHit.id).Nodup)
    ∧ scoreOf (reciprocal_rank_fusion scenarioLists 60) "B"
        = specRankSum 60 "B" scenarioLists :=
  ⟨by decide, C4_rrf_fused_score.1 scenarioLists "B" (by decide)⟩

/-- C6: the fused score assigned by `reciprocal_rank_fusion` to any document
is deterministic in its inputs and invariant under permuting the order in
which the per-query result lists are supplied. -/
theorem C6_rrf_order_invariance :
    ∀ (rpq rpq' : List (List SearchHit)) (k : ℚ) (d : String),
      rpq.Perm rpq' →
      scoreOf (reciprocal_rank_fusion rpq k) d
        = scoreOf (reciprocal_rank_fusion rpq' k) d := by
  intro rpq rpq' k d hperm
  rw [rrf_score_eq_spec, rrf_score_eq_spec]
  exact (hperm.map (specContribFrom k d 1)).sum_eq

/-- Witness for `C6_rrf_order_invariance`: swapping the two Scenario A query
result lists leaves every fused score unchanged. -/
theorem C6_rrf_order_invariance_witness :
    scoreOf (reciprocal_rank_fusion [[hitA, hitB, hitC], [hitB, hitA, hitD]] 60) "A"
      = scoreOf (reciprocal_rank_fusion [[hitB, hitA, hitD], [hitA, hitB, hitC]] 60) "A" :=
  C6_rrf_order_invariance _ _ 60 "A" (List.Perm.swap _ _ _)

theorem dedupContextLoop_invariant (rpq : List (List SearchHit)) :
    ∀ (fused : List (String × ℚ)) (seen : List String) (n : ℕ), n < 10 →
      ((dedupContextLoop rpq fused seen n).map ContextItem.source_msg_uid).Nodup
      ∧ (∀ it ∈ dedupContextLoop rpq fused seen n, it.source_msg_uid ∉ seen)
      ∧ (dedupContextLoop rpq fused seen n).length + n ≤ 10 := by
  intro fused
  induction fused with
  | nil =>
    intro seen n hn
    refine ⟨by simp [dedupContextLoop], by simp [dedupContextLoop], ?_⟩
    simp [dedupContextLoop]
    omega
  | cons p rest ih =>
    obtain ⟨doc_id, rrf_score⟩ := p
    intro seen n hn
    cases hfind : find_document_by_id rpq doc_id with
    | none =>
      have heq : dedupContextLoop rpq ((doc_id, rrf_score) :: rest) seen n
          = dedupContextLoop rpq rest seen n := by
        simp [dedupContextLoop, hfind]
      rw [heq]
      exact ih seen n hn
    | some doc =>
      by_cases hseen : effMessageId doc.payload ∈ seen
      · have heq : dedupContextLoop rpq ((doc_id, rrf_score) :: rest) seen n
            = dedupContextLoop rpq rest seen n := by
          simp [dedupContextLoop, hfind, hseen]
        rw [heq]
        exact ih seen n hn
      · by_cases hfact : doc.payload.fact = ""
        · have heq : dedupContextLoop rpq ((doc_id, rrf_score) :: rest) seen n
              = dedupContextLoop rpq rest seen n := by
            simp [dedupContextLoop, hfind, hseen, hfact]
          rw [heq]
          exact ih seen n hn
        · by_cases hcap : 10 ≤ n + 1
          · have heq : dedupContextLoop rpq ((doc_id, rrf_score) :: rest) seen n
                = [{ content := doc.payload.fact,
                     source_msg_uid := effMessageId doc.payload,
                     timestamp := doc.payload.timestamp, score := rrf_score,
                     description := doc.payload.description,
                     examples := doc.payload.examples }] := by
              simp [dedupContextLoop, hfind, hseen, hfact, hcap]
            rw [heq]
            refine ⟨by simp, ?_, by simp; omega⟩
            intro it hit
            simp at hit
            rw [hit]
            exact hseen
          · have hn1 : n + 1 < 10 := by omega
            have heq : dedupContextLoop rpq ((doc_id, rrf_score) :: rest) seen n
                = { content := doc.payload.fact,
                    source_msg_uid := effMessageId doc.payload,
                    timestamp := doc.payload.timestamp, score := rrf_score,
                    description := doc.payload.description,
                    examples := doc.payload.examples }
                  :: dedupContextLoop rpq rest (effMessageId doc.payload :: seen) (n + 1) := by
              simp [dedupContextLoop, hfind, hseen, hfact, hcap]
            rw [heq]
            rcases ih (effMessageId doc.payload :: seen) (n + 1) hn1 with ⟨ihnd, ihseen, ihlen⟩
            refine ⟨?_, ?_, by simp; omega⟩
            · rw [List.map_cons]
              refine List.nodup_cons.mpr ⟨?_, ihnd⟩
              intro hmem
              rcases List.mem_map.mp hmem with ⟨it, hit, hsrc⟩
              exact (ihseen it hit) (by rw [hsrc]; exact List.mem_cons_self _ _)
            · intro it hit
              rcases List.mem_cons.mp hit with h | h
              · rw [h]
                exact hseen
              · intro hcontra
                exact (ihseen it h) (List.mem_cons_of_mem _ hcontra)

/-- C5, counterexample: with queries `["q1","q2"]` where only the embedding
of `"q2"` raises, the node returns the empty context — it does not return
the partial results of `"q1"`, which running `["q1"]` alone shows to be
non-empty. -/
theorem C5_counterexample :
    retrieve_context_model embedFail2 searchConst ["q1", "q2"] = []
    ∧ retrieve_context_model embedFail2 searchConst ["q1"] ≠ [] := by
  constructor
  · rfl
  · simp [retrieve_context_model, runQueries, embedFail2, searchConst, buildContext,
      reciprocal_rank_fusion, rrfMap, rrfAddList, bumpScore, List.insertionSort,
      List.orderedInsert, dedupContextLoop, find_document_by_id, effMessageId, hitQ1]

theorem runQueries_append_error (embed : String → Except String Vec)
    (search : Vec → Except String (List SearchHit)) (q : String) (qs2 : List String)
    (hq : (∃ e, embed q = Except.error e)
        ∨ (∃ v e, embed q = Except.ok v ∧ search v = Except.error e)) :
    ∀ qs1 : List String, (∃ rpq, runQueries embed search qs1 = Except.ok rpq) →
      ∃ e, runQueries embed search (qs1 ++ q :: qs2) = Except.error e := by
  intro qs1
  induction qs1 with
  | nil =>
    intro _
    rcases hq with ⟨e, he⟩ | ⟨v, e, hv, he⟩
    · exact ⟨e, by simp [runQueries, he]⟩
    · exact ⟨e, by simp [runQueries, hv, he]⟩
  | cons q1 qs1 ih =>
    intro hok
    rcases hok with ⟨rpq, hrpq⟩
    rw [runQueries] at hrpq
    cases hv1 : embed q1 with
    | error e1 => simp [hv1] at hrpq
    | ok v1 =>
      simp only [hv1] at hrpq
      cases hh1 : search v1 with
      | error e1 => simp [hh1] at hrpq
      | ok hits1 =>
        simp only [hh1] at hrpq
        cases hrest : runQueries embed search qs1 with
        | error e1 => simp [hrest] at hrpq
        | ok rest1 =>
          rcases ih ⟨rest1, hrest⟩ with ⟨e, herr⟩
          refine ⟨e, ?_⟩
          simp [runQueries, hv1, hh1, herr]

/-- C5 (amended): if the embedding or the store search raises for any query
in the list (all earlier queries having succeeded), the node catches the
exception at the top level and returns the empty context list — no partial
results from the successful queries survive. -/
theorem C5_retrieval_failure_semantics :
    ∀ (embed : String → Except String Vec)
      (search : Vec → Except String (List SearchHit))
      (qs1 : List String) (q : String) (qs2 : List String),
      ((∃ e, embed q = Except.error e)
        ∨ (∃ v e, embed q = Except.ok v ∧ search v = Except.error e)) →
      (∃ rpq, runQueries embed search qs1 = Except.ok rpq) →
      retrieve_context_model embed search (qs1 ++ q :: qs2) = [] := by
  intro embed search qs1 q qs2 hq hok
  rcases runQueries_append_error embed search q qs2 hq qs1 hok with ⟨e, herr⟩
  simp [retrieve_context_model, herr]

/-- Witness for `C5_retrieval_failure_semantics` at the concrete C5
scenario: query `"q2"`'s embedding fails after `"q1"` succeeded, and the
node returns the empty context. -/
theorem C5_retrieval_failure_semantics_witness :
    ((∃ e, embedFail2 "q2" = Except.error e)
      ∨ (∃ v e, embedFail2 "q2" = Except.ok v ∧ searchConst v = Except.error e))
    ∧ (∃ rpq, runQueries embedFail2 searchConst ["q1"] = Except.ok rpq)
    ∧ retrieve_context_model embedFail2 searchConst (["q1"] ++ "q2" :: []) = [] :=
  ⟨Or.inl ⟨"embedding failed", rfl⟩, ⟨[[hitQ1]], rfl⟩,
    C5_retrieval_failure_semantics embedFail2 searchConst ["q1"] "q2" []
      (Or.inl ⟨"embedding failed", rfl⟩) ⟨[[hitQ1]], rfl⟩⟩

theorem noRelevantRecord_set_relevance (s : Store) (rid : String) :
    noRelevantRecord (set_relevance_by_record_id s rid false) rid := by
  intro p hp hid
  rcases List.mem_map.mp hp with ⟨q, hq, hpq⟩
  by_cases h : q.id = rid
  · rw [← hpq]
    simp [h]
  · rw [← hpq] at hid ⊢
    simp [h] at hid ⊢

theorem noRelevantRecord_applyOp {s : Store} {rid : String} {op : StoreOp}
    (hs : noRelevantRecord s rid) (hop : opAvoids rid op) :
    noRelevantRecord (applyOp s op) rid := by
  cases op with
  | insert p0 =>
    intro p hp hid
    rcases List.mem_append.mp hp with h | h
    · exact hs p h hid
    · simp at h
      rw [h] at hid
      exact absurd hid hop
  | setRel rid' b =>
    intro p hp hid
    rcases List.mem_map.mp hp with ⟨q, hq, hpq⟩
    by_cases h : q.id = rid'
    · rw [← hpq] at hid
      simp [h] at hid
      exact absurd hid (by simpa [opAvoids] using hop)
    · rw [← hpq] at hid ⊢
      simp [h] at hid ⊢
      exact hs q hq hid

theorem noRelevantRecord_foldl {rid : String} :
    ∀ (ops : List StoreOp) (s : Store), noRelevantRecord s rid →
      (∀ op ∈ ops, opAvoids rid op) → noRelevantRecord (ops.foldl applyOp s) rid := by
  intro ops
  induction ops with
  | nil => intro s hs _; exact hs
  | cons op rest ih =>
    intro s hs hops
    exact ih _ (noRelevantRecord_applyOp hs (hops op (List.mem_cons_self _ _)))
      (fun o ho => hops o (List.mem_cons_of_mem _ ho))

theorem search_similar_excludes {sim : Vec → Vec → ℚ} {s : Store} {rid : String}
    (hs : noRelevantRecord s rid) (qv : Vec) (top_k : ℕ) :
    ∀ hit ∈ search_similar sim s qv top_k true, hit.id ≠ rid := by
  intro hit hmem
  simp only [search_similar, if_true] at hmem
  have h1 := List.take_subset top_k _ hmem
  have h2 := (List.perm_insertionSort (fun a b : SearchHit => b.score ≤ a.score) _).mem_iff.mp h1
  rcases List.mem_map.mp h2 with ⟨p, hp, hph⟩
  rcases List.mem_filter.mp hp with ⟨hpmem, hprel⟩
  intro hid
  rw [← hph] at hid
  simp at hid
  have hrel := hs p hpmem hid
  rw [hrel] at hprel
  simp at hprel

theorem hasRecord_iff_fetch (s : Store) (rid : String) :
    (fetchById s rid).isSome ↔ ∃ p ∈ s, p.id = rid := by
  induction s with
  | nil => simp [fetchById]
  | cons p rest ih =>
    by_cases h : p.id = rid
    · simp [fetchById, List.find?, h]
    · simp only [fetchById, List.find?] at ih ⊢
      rw [show (p.id == rid) = false from by simpa using h]
      simp only [cond_false]
      rw [ih]
      constructor
      · intro ⟨q, hq, hqid⟩
        exact ⟨q, List.mem_cons_of_mem _ hq, hqid⟩
      · intro ⟨q, hq, hqid⟩
        rcases List.mem_cons.mp hq with hq' | hq'
        · rw [hq'] at hqid
          exact absurd hqid h
        · exact ⟨q, hq', hqid⟩

theorem hasRecord_set_relevance {s : Store} {rid : String} (rid' : String) (b : Bool)
    (h : ∃ p ∈ s, p.id = rid) :
    ∃ p ∈ set_relevance_by_record_id s rid' b, p.id = rid := by
  rcases h with ⟨p, hp, hid⟩
  by_cases hc : p.id = rid'
  · exact ⟨{ p with payload := { p.payload with is_relevant := b } },
      List.mem_map.mpr ⟨p, hp, by simp [hc]⟩, hid⟩
  · exact ⟨p, List.mem_map.mpr ⟨p, hp, by simp [hc]⟩, hid⟩

theorem hasRecord_foldl {rid : String} :
    ∀ (ops : List StoreOp) (s : Store), (∃ p ∈ s, p.id = rid) →
      ∃ p ∈ ops.foldl applyOp s, p.id = rid := by
  intro ops
  induction ops with
  | nil => intro s hs; exact hs
  | cons op rest ih =>
    intro s hs
    refine ih _ ?_
    cases op with
    | insert p0 =>
      rcases hs with ⟨p, hp, hid⟩
      exact ⟨p, List.mem_append.mpr (Or.inl hp), hid⟩
    | setRel rid' b => exact hasRecord_set_relevance rid' b hs

/-- C9: after `set_relevance(rid, false)`, the record `rid` never appears in
any later `is_relevant=true` filtered search, across any sequence of further
store writes that do not target `rid` themselves, and the record is never
removed — it stays fetchable by its id. -/
theorem C9_soft_delete_invariant :
    ∀ (sim : Vec → Vec → ℚ) (s : Store) (rid : String) (ops : List StoreOp),
      (∀ op ∈ ops, opAvoids rid op) →
      (∀ (qv : Vec) (top_k : ℕ),
        ∀ hit ∈ search_similar sim
          (ops.foldl applyOp (set_relevance_by_record_id s rid false)) qv top_k true,
          hit.id ≠ rid)
      ∧ ((fetchById s rid).isSome →
          (fetchById (ops.foldl applyOp (set_relevance_by_record_id s rid false))
            rid).isSome) := by
  intro sim s rid ops hops
  have hno : noRelevantRecord
      (ops.foldl applyOp (set_relevance_by_record_id s rid false)) rid :=
    noRelevantRecord_foldl ops _ (noRelevantRecord_set_relevance s rid) hops
  constructor
  · intro qv top_k hit hmem
    exact search_similar_excludes hno qv top_k hit hmem
  · intro hfetch
    rw [hasRecord_iff_fetch] at hfetch ⊢
    exact hasRecord_foldl ops _ (hasRecord_set_relevance rid false hfetch)

/-- Witness for `C9_soft_delete_invariant`: a one-record store, its record
soft-deleted, followed by an unrelated insert and an unrelated flip. -/
theorem C9_soft_delete_invariant_witness :
    (∀ op ∈ opsC9, opAvoids "r1" op)
    ∧ (∀ (qv : Vec) (top_k : ℕ),
        ∀ hit ∈ search_similar simZero
          (opsC9.foldl applyOp (set_relevance_by_record_id [ptR1] "r1" false)) qv top_k true,
          hit.id ≠ "r1")
    ∧ ((fetchById [ptR1] "r1").isSome →
        (fetchById (opsC9.foldl applyOp (set_relevance_by_record_id [ptR1] "r1" false))
          "r1").isSome) := by
  have hops : ∀ op ∈ opsC9, opAvoids "r1" op := by
    intro op hop
    simp only [opsC9, List.mem_cons, List.mem_singleton] at hop
    rcases hop with h | h | h
    · rw [h]; simp [opAvoids, ptR2]
    · rw [h]; simp [opAvoids]
    · exact absurd h (by simp)
  exact ⟨hops, (C9_soft_delete_invariant simZero [ptR1] "r1" opsC9 hops).1,
    (C9_soft_delete_invariant simZero [ptR1] "r1" opsC9 hops).2⟩

theorem filter_set_relevance_ne (s : Store) (rid rid' : String) (b : Bool)
    (h : rid' ≠ rid) :
    (set_relevance_by_record_id s rid' b).filter (fun p => p.id == rid)
      = s.filter (fun p => p.id == rid) := by
  induction s with
  | nil => rfl
  | cons p rest ih =>
    rw [set_relevance_by_record_id] at ih ⊢
    simp only [List.map_cons]
    by_cases hp : p.id = rid'
    · have h2 : ¬ p.id = rid := by rw [hp]; exact h
      simp [List.filter_cons, hp, h, h2, ih]
    · have hne2 : ¬ rid = rid' := fun hc => h hc.symm
      by_cases hq : p.id = rid
      · simp [List.filter_cons, hp, hq, hne2, ih]
      · simp [List.filter_cons, hp, hq, hne2, ih]

theorem applyConflictMarks_frame (sf : List SimilarFact) (rid : String)
    (h : rid ∉ sf.map SimilarFact.record_id) :
    ∀ (cids : List String) (st : Store) (rep : List (String × String)),
      (applyConflictMarks sf (st, rep) cids).1.filter (fun p => p.id == rid)
        = st.filter (fun p => p.id == rid) := by
  intro cids
  induction cids with
  | nil => intro st rep; rfl
  | cons cid rest ih =>
    intro st rep
    by_cases h1 : pyStrip cid = ""
    · rw [show applyConflictMarks sf (st, rep) (cid :: rest)
          = applyConflictMarks sf (st, rep) rest from by
        rw [applyConflictMarks]
        simp [h1]]
      exact ih st rep
    · by_cases h2 : pyStrip cid ∈ sf.map SimilarFact.record_id
      · have hne : pyStrip cid ≠ rid := by
          intro hc
          rw [hc] at h2
          exact h h2
        rw [show applyConflictMarks sf (st, rep) (cid :: rest)
            = applyConflictMarks sf
                (set_relevance_by_record_id st (pyStrip cid) false,
                 rep ++ [(pyStrip cid, (message_fact_lookup sf (pyStrip cid)).getD "")]) rest from by
          rw [applyConflictMarks]
          simp [h1, h2]]
        rw [ih]
        exact filter_set_relevance_ne st rid (pyStrip cid) false hne
      · rw [show applyConflictMarks sf (st, rep) (cid :: rest)
            = applyConflictMarks sf (st, rep) rest from by
          rw [applyConflictMarks]
          simp [h1, h2]]
        exact ih st rep

/-- C10: processing one incoming fact flips flags only on records whose ids
are among the (at most 3) neighbours fetched for that same fact; the stored
state of every other record id is untouched, whatever ids the classifier
returns. -/
theorem C10_conflict_flip_frame :
    ∀ (sim : Vec → Vec → ℚ) (embed : String → Vec)
      (classify : String → List SimilarFact → List String)
      (s : Store) (update_text : String) (rid : String),
      (_extract_similar_facts (search_similar sim s (embed update_text) 3 true)).length ≤ 3
      ∧ (rid ∉ (_extract_similar_facts
            (search_similar sim s (embed update_text) 3 true)).map SimilarFact.record_id →
          (check_conflicts_update sim embed classify s update_text).1.filter
              (fun p => p.id == rid)
            = s.filter (fun p => p.id == rid)) := by
  intro sim embed classify s update_text rid
  constructor
  · calc (_extract_similar_facts (search_similar sim s (embed update_text) 3 true)).length
        ≤ (search_similar sim s (embed update_text) 3 true).length :=
          List.length_filterMap_le _ _
      _ ≤ 3 := by
          simp only [search_similar, if_true]
          rw [List.length_take]
          exact min_le_left _ _
  · intro hnot
    by_cases hempty : _extract_similar_facts
        (search_similar sim s (embed update_text) 3 true) = []
    · have hval : check_conflicts_update sim embed classify s update_text = (s, []) := by
        simp [check_conflicts_update, hempty]
      rw [hval]
    · have hval : check_conflicts_update sim embed classify s update_text
          = applyConflictMarks
              (_extract_similar_facts (search_similar sim s (embed update_text) 3 true))
              (s, [])
              (classify update_text (_extract_similar_facts
                (search_similar sim s (embed update_text) 3 true))) := by
        simp [check_conflicts_update, hempty]
      rw [hval]
      exact applyConflictMarks_frame _ rid hnot _ s []

/-- Witness for `C10_conflict_flip_frame`: a one-record store; the record id
`"rX"` is not among the fetched neighbours, so its state is untouched even
though the classifier names an unrelated id. -/
theorem C10_conflict_flip_frame_witness :
    ("rX" ∉ (_extract_similar_facts
        (search_similar simZero [ptR1] ((fun _ => [1]) "new fact") 3 true)).map
        SimilarFact.record_id)
    ∧ (_extract_similar_facts
        (search_similar simZero [ptR1] ((fun _ => [1]) "new fact") 3 true)).length ≤ 3
    ∧ (check_conflicts_update simZero (fun _ => [1]) (fun _ _ => ["ghost"])
        [ptR1] "new fact").1.filter (fun p => p.id == "rX")
      = [ptR1].filter (fun p => p.id == "rX") :=
  ⟨by decide,
    (C10_conflict_flip_frame simZero (fun _ => [1]) (fun _ _ => ["ghost"])
      [ptR1] "new fact" "rX").1,
    (C10_conflict_flip_frame simZero (fun _ => [1]) (fun _ _ => ["ghost"])
      [ptR1] "new fact" "rX").2 (by decide)⟩

/-- C2: a classifier verdict whose confidence is strictly below the
threshold is reported as no-conflict whatever its boolean flag says, the
pair contributes no conflict entry, and the resolution step consequently
leaves the neighbour's store state unchanged. -/
theorem C2_confidence_threshold :
    ∀ (v : ClassifierVerdict) (threshold : ℚ) (s : Store)
      (record_id old_content : String),
      v.confidence < threshold →
      (check_contradiction (some v) threshold).1 = false
      ∧ pairConflictList record_id old_content (some v) threshold = []
      ∧ resolve_conflicts s
          (pairConflictList record_id old_content (some v) threshold) = s := by
  intro v threshold s record_id old_content h
  have h1 : (check_contradiction (some v) threshold).1 = false := by
    simp [check_contradiction, h]
  have h2 : pairConflictList record_id old_content (some v) threshold = [] := by
    rw [pairConflictList]
    have : pairConflict old_content (some v) threshold = false := by
      rw [pairConflict]
      by_cases hlen : (pyStrip old_content).length < 5
      · rw [if_pos hlen]
      · rw [if_neg hlen]
        exact h1
    simp [this]
  exact ⟨h1, h2, by rw [h2]; rfl⟩

/-- Witness for `C2_confidence_threshold`: the boolean flag claims a direct
conflict but the confidence 0.5 sits below the default threshold 0.7. -/
theorem C2_confidence_threshold_witness :
    ((⟨true, mkRat 1 2, "direct"⟩ : ClassifierVerdict).confidence < defaultThreshold)
    ∧ (check_contradiction (some ⟨true, mkRat 1 2, "direct"⟩) defaultThreshold).1 = false
    ∧ pairConflictList "r1" "old fact text" (some ⟨true, mkRat 1 2, "direct"⟩)
        defaultThreshold = []
    ∧ resolve_conflicts [ptR1]
        (pairConflictList "r1" "old fact text" (some ⟨true, mkRat 1 2, "direct"⟩)
          defaultThreshold) = [ptR1] := by
  have hlt : ((⟨true, mkRat 1 2, "direct"⟩ : ClassifierVerdict).confidence
      < defaultThreshold) := by decide
  have h := C2_confidence_threshold ⟨true, mkRat 1 2, "direct"⟩ defaultThreshold [ptR1]
    "r1" "old fact text" hlt
  exact ⟨hlt, h.1, h.2.1, h.2.2⟩

theorem runLoop_steps_length (gen : ℕ → Option ReactThought)
    (backend : String → Except String (List SearchHit)) :
    ∀ (fuel iteration : ℕ) (steps : List ReactStep) (ctx : List ReactCtx)
      (sq log : List String),
      (runLoop gen backend fuel iteration steps ctx sq log).steps.length
        ≤ steps.length + fuel := by
  intro fuel
  induction fuel with
  | zero =>
    intro iteration steps ctx sq log
    simp [runLoop]
  | succ n ih =>
    intro iteration steps ctx sq log
    rw [runLoop]
    cases hgen : generate_thought gen iteration with
    | none => simp
    | some t =>
      dsimp only
      rcases hres : execute_action backend sq t with ⟨result, sq2, calls⟩
      cases ht : t.action with
      | answer => simp
      | search =>
        by_cases hbreak :
            (!result.success && containsSub result.observation "already used") = true
        · rw [if_pos hbreak]
          simp
        · rw [if_neg hbreak]
          refine le_trans (ih _ _ _ _ _) ?_
          simp
          omega

/-- C1: `ReactAgent.run` always terminates, and for every LLM oracle, store
backend, iteration budget and initial context the returned step trace has
length at most `max_iterations + 1` (each loop iteration appends exactly
one step and either stops or consumes one unit of budget; the default
budget is `defaultMaxIterations = 3`). -/
theorem C1_react_run_bounded :
    ∀ (gen : ℕ → Option ReactThought)
      (backend : String → Except String (List SearchHit))
      (max_iterations : ℕ) (initial_context : List ReactCtx),
      (ReactAgent_run gen backend max_iterations initial_context).steps.length
        ≤ max_iterations + 1 := by
  intro gen backend max_iterations initial_context
  have h := runLoop_steps_length gen backend max_iterations 0 [] initial_context [] []
  rw [ReactAgent_run]
  simp only [List.length_nil] at h
  omega

theorem execute_action_calls (backend : String → Except String (List SearchHit))
    (sq : List String) (t : ReactThought) :
    ((execute_action backend sq t).2.2 = []
      ∧ (execute_action backend sq t).2.1 = sq)
    ∨ ((execute_action backend sq t).2.2 = [t.tool_input.getD ""]
      ∧ pyLower (pyStrip (t.tool_input.getD "")) ∉ sq
      ∧ (execute_action backend sq t).2.1
          = pyLower (pyStrip (t.tool_input.getD "")) :: sq) := by
  cases ht : t.action with
  | answer =>
    left
    simp [execute_action, ht]
  | search =>
    cases htn : t.tool_name with
    | none =>
      left
      simp [execute_action, ht, htn]
    | some name =>
      by_cases hname : name = "search"
      · subst hname
        by_cases hdup : pyLower (pyStrip (t.tool_input.getD "")) ∈ sq
        · left
          simp [execute_action, ht, htn, searchToolExecute, hdup]
        · right
          cases hb : backend (t.tool_input.getD "") with
          | ok rs =>
            refine ⟨?_, hdup, ?_⟩ <;>
              simp [execute_action, ht, htn, searchToolExecute, hdup, hb]
          | error e =>
            refine ⟨?_, hdup, ?_⟩ <;>
              simp [execute_action, ht, htn, searchToolExecute, hdup, hb]
      · left
        simp [execute_action, ht, htn, hname]

theorem runLoop_searchLog_nodup (gen : ℕ → Option ReactThought)
    (backend : String → Except String (List SearchHit)) :
    ∀ (fuel iteration : ℕ) (steps : List ReactStep) (ctx : List ReactCtx)
      (sq log : List String),
      (log.map (fun q => pyLower (pyStrip q))).Nodup →
      (∀ q ∈ log, pyLower (pyStrip q) ∈ sq) →
      (((runLoop gen backend fuel iteration steps ctx sq log).searchLog.map
        (fun q => pyLower (pyStrip q))).Nodup) := by
  intro fuel
  induction fuel with
  | zero =>
    intro it steps ctx sq log h1 h2
    simpa [runLoop] using h1
  | succ n ih =>
    intro it steps ctx sq log h1 h2
    rw [runLoop]
    cases hgen : generate_thought gen it with
    | none => simpa using h1
    | some t =>
      dsimp only
      have hspec := execute_action_calls backend sq t
      rcases hres : execute_action backend sq t with ⟨result, sq2, calls⟩
      rw [hres] at hspec
      dsimp only at hspec
      have hterm : ((log ++ calls).map (fun q => pyLower (pyStrip q))).Nodup := by
        rcases hspec with ⟨hc, _⟩ | ⟨hc, hnotin, _⟩
        · simpa [hc] using h1
        · rw [hc]
          rw [List.map_append]
          rw [List.nodup_append]
          refine ⟨h1, by simp, ?_⟩
          intro a ha
          simp only [List.map_cons, List.map_nil, List.mem_singleton]
          intro hb
          rcases List.mem_map.mp ha with ⟨q, hq, hqa⟩
          rw [hb] at hqa
          exact hnotin (hqa ▸ h2 q hq)
      have hsub : ∀ q ∈ log ++ calls, pyLower (pyStrip q) ∈ sq2 := by
        rcases hspec with ⟨hc, hsq⟩ | ⟨hc, hnotin, hsq⟩
        · intro q hq
          rw [hc] at hq
          simp at hq
          rw [hsq]
          exact h2 q hq
        · intro q hq
          rw [hc] at hq
          rw [hsq]
          rcases List.mem_append.mp hq with h | h
          · exact List.mem_cons_of_mem _ (h2 q h)
          · simp at h
            rw [h]
            exact List.mem_cons_self _ _
      cases ht : t.action with
      | answer => simpa using hterm
      | search =>
        by_cases hbreak :
            (!result.success && containsSub result.observation "already used") = true
        · rw [if_pos hbreak]
          simpa using hterm
        · rw [if_neg hbreak]
          exact ih _ _ _ _ _ hterm hsub

theorem runLoop_dropLast_continues (gen : ℕ → Option ReactThought)
    (backend : String → Except String (List SearchHit)) :
    ∀ (fuel iteration : ℕ) (steps : List ReactStep) (ctx : List ReactCtx)
      (sq log : List String),
      (∀ step ∈ steps, stepContinues step = true) →
      ∀ step ∈ (runLoop gen backend fuel iteration steps ctx sq log).steps.dropLast,
        stepContinues step = true := by
  intro fuel
  induction fuel with
  | zero =>
    intro it steps ctx sq log hall step hstep
    rw [runLoop] at hstep
    exact hall step (List.dropLast_subset _ hstep)
  | succ n ih =>
    intro it steps ctx sq log hall
    rw [runLoop]
    cases hgen : generate_thought gen it with
    | none =>
      intro step hstep
      dsimp only at hstep
      rw [List.dropLast_concat] at hstep
      exact hall step hstep
    | some t =>
      dsimp only
      rcases hres : execute_action backend sq t with ⟨result, sq2, calls⟩
      cases ht : t.action with
      | answer =>
        intro step hstep
        dsimp only at hstep
        rw [List.dropLast_concat] at hstep
        exact hall step hstep
      | search =>
        by_cases hbreak :
            (!result.success && containsSub result.observation "already used") = true
        · rw [if_pos hbreak]
          intro step hstep
          dsimp only at hstep
          rw [List.dropLast_concat] at hstep
          exact hall step hstep
        · rw [if_neg hbreak]
          refine ih _ _ _ _ _ ?_
          intro step hstep
          rcases List.mem_append.mp hstep with h | h
          · exact hall step h
          · simp only [List.mem_singleton] at h
            rw [h]
            rw [stepContinues]
            simp only [ht]
            have hbf : (!result.success && containsSub result.observation "already used")
                = false := Bool.of_not_eq_true hbreak
            simp [hbf]

/-- C3, counterexample: with a model that repeats the query `"capital"`,
the run searches the store exactly once and stops at the second step — but
that final recorded step has `action=search` (the failed duplicate result),
not `action=answer` as the claim states. -/
theorem C3_counterexample :
    (ReactAgent_run genRepeat backendEmpty 3 []).searchLog = ["capital"]
    ∧ (ReactAgent_run genRepeat backendEmpty 3 []).steps.map ReactStep.action
        = [ActionType.search, ActionType.search]
    ∧ ¬ (((ReactAgent_run genRepeat backendEmpty 3 []).steps.getLast?).map
          ReactStep.action = some ActionType.answer) := by
  refine ⟨?_, ?_, ?_⟩ <;> decide

/-- C3 (amended): the duplicate-query guard of one run — (i) a search whose
normalised (stripped, lowercased) `tool_input` was already used returns the
failed "already used" result immediately, leaving the query set unchanged
and sending nothing to the store; (ii) hence no two store searches of a run
ever share a normalised query; (iii) the loop records such a step and stops
right there: every non-final step of a trace is a successfully continuing
search. The terminating step keeps `action=search` with `success=False`; it
is not replaced by an answer action. -/
theorem C3_duplicate_query_guard :
    (∀ (backend : String → Except String (List SearchHit)) (sq : List String)
        (ti : String),
        pyLower (pyStrip ti) ∈ sq →
        searchToolExecute backend sq ti
          = ({ success := false,
               observation := "Query '" ++ ti ++ "' already used. Try different keywords.",
               data := none }, sq, []))
    ∧ (∀ (gen : ℕ → Option ReactThought)
        (backend : String → Except String (List SearchHit))
        (n : ℕ) (ctx : List ReactCtx),
        (((ReactAgent_run gen backend n ctx).searchLog.map
          (fun q => pyLower (pyStrip q))).Nodup))
    ∧ (∀ (gen : ℕ → Option ReactThought)
        (backend : String → Except String (List SearchHit))
        (n : ℕ) (ctx : List ReactCtx),
        ∀ step ∈ (ReactAgent_run gen backend n ctx).steps.dropLast,
          stepContinues step = true) := by
  refine ⟨?_, ?_, ?_⟩
  · intro backend sq ti h
    rw [searchToolExecute]
    simp [h]
  · intro gen backend n ctx
    exact runLoop_searchLog_nodup gen backend n 0 [] ctx [] [] (by simp) (by simp)
  · intro gen backend n ctx
    exact runLoop_dropLast_continues gen backend n 0 [] ctx [] [] (by simp)

/-- Witness for `C3_duplicate_query_guard` at the concrete repeating run:
the repeated query `"capital"` is already in the set, the tool returns the
duplicate result without a store call, and the concrete run's log and trace
satisfy the guard. -/
theorem C3_duplicate_query_guard_witness :
    (pyLower (pyStrip "capital") ∈ ["capital"])
    ∧ searchToolExecute backendEmpty ["capital"] "capital"
        = ({ success := false,
             observation := "Query '" ++ "capital" ++ "' already used. Try different keywords.",
             data := none }, ["capital"], [])
    ∧ (((ReactAgent_run genRepeat backendEmpty 3 []).searchLog.map
        (fun q => pyLower (pyStrip q))).Nodup)
    ∧ (∀ step ∈ (ReactAgent_run genRepeat backendEmpty 3 []).steps.dropLast,
        stepContinues step = true) :=
  ⟨by decide,
   C3_duplicate_query_guard.1 backendEmpty ["capital"] "capital" (by decide),
   C3_duplicate_query_guard.2.1 genRepeat backendEmpty 3 [],
   C3_duplicate_query_guard.2.2 genRepeat backendEmpty 3 []⟩

theorem valid_search_tool_input {t₀ : ReactThought}
    (hv : reactThoughtValid t₀ = true) (ha : t₀.action = ActionType.search) :
    ∃ ti, t₀.tool_input = some ti ∧ 3 ≤ ti.length ∧ pyStrip ti ≠ "" := by
  rw [reactThoughtValid] at hv
  simp only [Bool.and_eq_true] at hv
  obtain ⟨⟨⟨h1, h2⟩, h3⟩, h4⟩ := hv
  rw [ha] at h4
  cases hti : t₀.tool_input with
  | none =>
    rw [hti] at h4
    simp at h4
  | some ti =>
    rw [hti] at h3 h4
    simp only [decide_eq_true_eq, Bool.and_eq_true] at h3 h4
    exact ⟨ti, rfl, h3.1, h4⟩

theorem strip_tool_input {t₀ : ReactThought} {ti : String}
    (hti : t₀.tool_input = some ti) (hlen : 3 ≤ ti.length) :
    (applyValidatorStrip t₀).tool_input = some (pyStrip ti) := by
  have hne : ti ≠ "" := by
    intro h
    rw [h] at hlen
    exact absurd hlen (by decide)
  rw [applyValidatorStrip]
  simp [hti, hne]

theorem runLoop_search_tool_input (gen : ℕ → Option ReactThought)
    (backend : String → Except String (List SearchHit)) :
    ∀ (fuel iteration : ℕ) (steps : List ReactStep) (ctx : List ReactCtx)
      (sq log : List String),
      (∀ step ∈ steps, step.action = ActionType.search →
        ∃ s, step.tool_input = some s ∧ s ≠ "") →
      ∀ step ∈ (runLoop gen backend fuel iteration steps ctx sq log).steps,
        step.action = ActionType.search →
        ∃ s, step.tool_input = some s ∧ s ≠ "" := by
  intro fuel
  induction fuel with
  | zero =>
    intro it steps ctx sq log hall
    rw [runLoop]
    exact hall
  | succ n ih =>
    intro it steps ctx sq log hall
    rw [runLoop]
    cases hgen : generate_thought gen it with
    | none =>
      intro step hstep hact
      dsimp only at hstep
      rcases List.mem_append.mp hstep with h | h
      · exact hall step h hact
      · simp only [List.mem_singleton] at h
        rw [h] at hact
        exact absurd hact (by simp [invalidFallbackStep])
    | some t =>
      have hgen' := hgen
      rw [generate_thought] at hgen'
      cases hg : gen it with
      | none =>
        rw [hg] at hgen'
        simp at hgen'
      | some t₀ =>
        rw [hg] at hgen'
        dsimp only at hgen'
        by_cases hv : reactThoughtValid t₀ = true
        · rw [if_pos hv] at hgen'
          simp only [Option.some.injEq] at hgen'
          dsimp only
          rcases hres : execute_action backend sq t with ⟨result, sq2, calls⟩
          have hnew : t.action = ActionType.search →
              ∃ s, t.tool_input = some s ∧ s ≠ "" := by
            intro hact
            have ha0 : t₀.action = ActionType.search := by
              rw [← hgen'] at hact
              exact hact
            rcases valid_search_tool_input hv ha0 with ⟨ti, hti, hlen, hstrip⟩
            refine ⟨pyStrip ti, ?_, hstrip⟩
            rw [← hgen']
            exact strip_tool_input hti hlen
          have hall' : ∀ step ∈ steps ++ [({ iteration := it + 1, thought := t.thought, action := t.action, tool_name := t.tool_name, tool_input := t.tool_input, observation := result.observation, success := result.success } : ReactStep)], step.action = ActionType.search → ∃ s, step.tool_input = some s ∧ s ≠ "" := by
            intro step hstep hact
            rcases List.mem_append.mp hstep with h | h
            · exact hall step h hact
            · simp only [List.mem_singleton] at h
              rw [h] at hact ⊢
              exact hnew hact
          cases ht : t.action with
          | answer =>
            dsimp only
            rw [ht] at hall'
            exact hall'
          | search =>
            dsimp only
            by_cases hbreak :
                (!result.success && containsSub result.observation "already used") = true
            · rw [if_pos hbreak]
              rw [ht] at hall'
              exact hall'
            · rw [if_neg hbreak]
              rw [ht] at hall'
              exact ih _ _ _ _ _ hall'
        · rw [if_neg hv] at hgen'
          simp at hgen'

/-- C8, counterexample: the tool input `"???"` contains no non-punctuation
token, yet it passes the model validation (length 3, non-blank), the search
executes against the store, and the loop does not force-terminate at that
step — it continues and only answers on the next iteration. -/
theorem C8_counterexample :
    reactThoughtValid punctThought = true
    ∧ specHasNonPunctuationToken "???" = false
    ∧ (ReactAgent_run genPunct backendEmpty 3 []).searchLog = ["???"]
    ∧ (ReactAgent_run genPunct backendEmpty 3 []).steps.map ReactStep.action
        = [ActionType.search, ActionType.answer] := by
  refine ⟨?_, ?_, ?_, ?_⟩ <;> decide

/-- C8 (amended): before a search executes, the step is validated by the
`ReactThought` model — a `thought` of 5-500 characters and, for a search, a
`tool_input` of 3-200 characters that is non-blank after stripping (there
is no non-punctuation-token requirement) — (i) when generation or
validation fails the loop appends the fallback step with `action=answer`,
`success=False` and terminates; (ii) `generate_thought` only ever yields
thoughts that passed validation (stripped); (iii) hence every recorded
search step carries a non-empty `tool_input`. -/
theorem C8_react_validation :
    (∀ (gen : ℕ → Option ReactThought)
        (backend : String → Except String (List SearchHit))
        (fuel iteration : ℕ) (steps : List ReactStep) (ctx : List ReactCtx)
        (sq log : List String),
        generate_thought gen iteration = none →
        runLoop gen backend (fuel + 1) iteration steps ctx sq log
          = ⟨steps ++ [invalidFallbackStep (iteration + 1)], ctx, log⟩)
    ∧ (∀ (gen : ℕ → Option ReactThought) (iteration : ℕ) (t : ReactThought),
        generate_thought gen iteration = some t →
        ∃ t₀, gen iteration = some t₀ ∧ reactThoughtValid t₀ = true
          ∧ t = applyValidatorStrip t₀)
    ∧ (∀ (gen : ℕ → Option ReactThought)
        (backend : String → Except String (List SearchHit))
        (n : ℕ) (ctx : List ReactCtx),
        ∀ step ∈ (ReactAgent_run gen backend n ctx).steps,
          step.action = ActionType.search →
          ∃ s, step.tool_input = some s ∧ s ≠ "") := by
  refine ⟨?_, ?_, ?_⟩
  · intro gen backend fuel iteration steps ctx sq log h
    rw [runLoop, h]
  · intro gen iteration t h
    rw [generate_thought] at h
    cases hg : gen iteration with
    | none =>
      rw [hg] at h
      simp at h
    | some t₀ =>
      rw [hg] at h
      dsimp only at h
      by_cases hv : reactThoughtValid t₀ = true
      · rw [if_pos hv] at h
        simp only [Option.some.injEq] at h
        exact ⟨t₀, rfl, hv, h.symm⟩
      · rw [if_neg hv] at h
        simp at h
  · intro gen backend n ctx
    exact runLoop_search_tool_input gen backend n 0 [] ctx [] [] (by simp)

/-- Witness for `C8_react_validation`: a failing generator triggers the
fallback answer step, the repeating generator's output passed validation,
and the `"???"` run's search step carries the non-empty input `"???"`. -/
theorem C8_react_validation_witness :
    (generate_thought (fun _ => none) 0 = none)
    ∧ runLoop (fun _ => none) backendEmpty 3 0 [] [] [] []
        = ⟨[invalidFallbackStep 1], [], []⟩
    ∧ (generate_thought genRepeat 0 = some (applyValidatorStrip repeatThought))
    ∧ (∃ t₀, genRepeat 0 = some t₀ ∧ reactThoughtValid t₀ = true
        ∧ applyValidatorStrip repeatThought = applyValidatorStrip t₀)
    ∧ (∀ step ∈ (ReactAgent_run genPunct backendEmpty 3 []).steps,
        step.action = ActionType.search →
        ∃ s, step.tool_input = some s ∧ s ≠ "") :=
  ⟨rfl,
   C8_react_validation.1 (fun _ => none) backendEmpty 2 0 [] [] [] [] rfl,
   by decide,
   C8_react_validation.2.1 genRepeat 0 _ (by decide),
   C8_react_validation.2.2 genPunct backendEmpty 3 []⟩

theorem rrf_sorted (rpq : List (List SearchHit)) (k : ℚ) :
    (reciprocal_rank_fusion rpq k).Sorted (fun a b => b.2 ≤ a.2) := by
  haveI : IsTotal (String × ℚ) (fun a b => b.2 ≤ a.2) := ⟨fun a b => le_total b.2 a.2⟩
  haveI : IsTrans (String × ℚ) (fun a b => b.2 ≤ a.2) := ⟨fun a b c h1 h2 => le_trans h2 h1⟩
  exact List.sorted_insertionSort _ _

theorem dedupContextLoop_keeps_max (rpq : List (List SearchHit)) :
    ∀ (fused : List (String × ℚ)) (seen : List String) (n : ℕ), n < 10 →
      fused.Sorted (fun a b => b.2 ≤ a.2) →
      ∀ item ∈ dedupContextLoop rpq fused seen n,
        ∀ p ∈ fused, ∀ doc, find_document_by_id rpq p.1 = some doc →
          effMessageId doc.payload = item.source_msg_uid →
          doc.payload.fact ≠ "" → p.2 ≤ item.score := by
  intro fused
  induction fused with
  | nil =>
    intro seen n hn hs item hitem
    exact absurd hitem (by simp [dedupContextLoop])
  | cons q rest ih =>
    obtain ⟨doc_id, s⟩ := q
    intro seen n hn hs
    rcases List.sorted_cons.mp hs with ⟨hhead, hrest⟩
    cases hfind : find_document_by_id rpq doc_id with
    | none =>
      have heq : dedupContextLoop rpq ((doc_id, s) :: rest) seen n
          = dedupContextLoop rpq rest seen n := by simp [dedupContextLoop, hfind]
      rw [heq]
      intro item hitem p hp doc hdoc hmid hfact
      rcases List.mem_cons.mp hp with hp' | hp'
      · rw [hp'] at hdoc
        rw [hfind] at hdoc
        exact absurd hdoc (by simp)
      · exact ih seen n hn hrest item hitem p hp' doc hdoc hmid hfact
    | some doc₀ =>
      by_cases hseen : effMessageId doc₀.payload ∈ seen
      · have heq : dedupContextLoop rpq ((doc_id, s) :: rest) seen n
            = dedupContextLoop rpq rest seen n := by
          simp [dedupContextLoop, hfind, hseen]
        rw [heq]
        intro item hitem p hp doc hdoc hmid hfact
        rcases List.mem_cons.mp hp with hp' | hp'
        · rw [hp'] at hdoc
          rw [hfind] at hdoc
          simp only [Option.some.injEq] at hdoc
          rw [hdoc] at hseen
          rw [hmid] at hseen
          have hnotin := (dedupContextLoop_invariant rpq rest seen n hn).2.1 item hitem
          exact absurd hseen hnotin
        · exact ih seen n hn hrest item hitem p hp' doc hdoc hmid hfact
      · by_cases hfact0 : doc₀.payload.fact = ""
        · have heq : dedupContextLoop rpq ((doc_id, s) :: rest) seen n
              = dedupContextLoop rpq rest seen n := by
            simp [dedupContextLoop, hfind, hseen, hfact0]
          rw [heq]
          intro item hitem p hp doc hdoc hmid hfact
          rcases List.mem_cons.mp hp with hp' | hp'
          · rw [hp'] at hdoc
            rw [hfind] at hdoc
            simp only [Option.some.injEq] at hdoc
            rw [hdoc] at hfact0
            exact absurd hfact0 hfact
          · exact ih seen n hn hrest item hitem p hp' doc hdoc hmid hfact
        · by_cases hcap : 10 ≤ n + 1
          · have heq : dedupContextLoop rpq ((doc_id, s) :: rest) seen n
                = [{ content := doc₀.payload.fact,
                     source_msg_uid := effMessageId doc₀.payload,
                     timestamp := doc₀.payload.timestamp, score := s,
                     description := doc₀.payload.description,
                     examples := doc₀.payload.examples }] := by
              simp [dedupContextLoop, hfind, hseen, hfact0, hcap]
            rw [heq]
            intro item hitem p hp doc hdoc hmid hfact
            simp only [List.mem_singleton] at hitem
            rcases List.mem_cons.mp hp with hp' | hp'
            · rw [hp', hitem]
            · have := hhead p hp'
              rw [hitem]
              exact this
          · have hn1 : n + 1 < 10 := by omega
            have heq : dedupContextLoop rpq ((doc_id, s) :: rest) seen n
                = { content := doc₀.payload.fact,
                    source_msg_uid := effMessageId doc₀.payload,
                    timestamp := doc₀.payload.timestamp, score := s,
                    description := doc₀.payload.description,
                    examples := doc₀.payload.examples }
                  :: dedupContextLoop rpq rest (effMessageId doc₀.payload :: seen) (n + 1) := by
              simp [dedupContextLoop, hfind, hseen, hfact0, hcap]
            rw [heq]
            intro item hitem p hp doc hdoc hmid hfact
            rcases List.mem_cons.mp hitem with hitem' | hitem'
            · rcases List.mem_cons.mp hp with hp' | hp'
              · rw [hp', hitem']
              · have := hhead p hp'
                rw [hitem']
                exact this
            · rcases List.mem_cons.mp hp with hp' | hp'
              · rw [hp'] at hdoc
                rw [hfind] at hdoc
                simp only [Option.some.injEq] at hdoc
                have hnotin := (dedupContextLoop_invariant rpq rest
                  (effMessageId doc₀.payload :: seen) (n + 1) hn1).2.1 item hitem'
                rw [← hdoc] at hmid
                rw [hmid] at hnotin
                exact absurd (List.mem_cons_self _ _) hnotin
              · exact ih (effMessageId doc₀.payload :: seen) (n + 1) hn1 hrest
                  item hitem' p hp' doc hdoc hmid hfact

/-- C7: for every family of per-query search results, the context list
produced by the retrieval node contains at most one item per distinct
`source_msg_uid` and at most 10 items in total; moreover, since the fused
list is sorted by score descending and scanned in order, the kept item of
each message id has a fused score at least that of every other fused entry
in the scanned top-15 window that resolves to the same message id with a
non-empty fact. -/
theorem C7_retrieval_dedup_and_cap :
    (∀ (embed : String → Except String Vec)
        (search : Vec → Except String (List SearchHit)) (queries : List String),
        ((retrieve_context_model embed search queries).map
          ContextItem.source_msg_uid).Nodup
        ∧ (retrieve_context_model embed search queries).length ≤ 10)
    ∧ (∀ (rpq : List (List SearchHit)), ∀ item ∈ buildContext rpq,
        ∀ p ∈ (reciprocal_rank_fusion rpq 60).take 15,
          ∀ doc, find_document_by_id rpq p.1 = some doc →
            effMessageId doc.payload = item.source_msg_uid →
            doc.payload.fact ≠ "" → p.2 ≤ item.score) := by
  constructor
  · intro embed search queries
    unfold retrieve_context_model
    cases runQueries embed search queries with
    | error e => simp
    | ok rpq =>
      have h := dedupContextLoop_invariant rpq
        ((reciprocal_rank_fusion rpq 60).take 15) [] 0 (by norm_num)
      exact ⟨h.1, by have := h.2.2; simpa [buildContext] using this⟩
  · intro rpq item hitem p hp doc hdoc hmid hfact
    have hsorted : ((reciprocal_rank_fusion rpq 60).take 15).Sorted
        (fun a b => b.2 ≤ a.2) :=
      List.Pairwise.sublist (List.take_sublist _ _) (rrf_sorted rpq 60)
    exact dedupContextLoop_keeps_max rpq ((reciprocal_rank_fusion rpq 60).take 15)
      [] 0 (by norm_num) hsorted item hitem p hp doc hdoc hmid hfact

/-- Witness for `C7_retrieval_dedup_and_cap`: two documents of the same
source message; the kept item is the higher-scored occurrence, and the
other occurrence's fused score is bounded by it. -/
theorem C7_retrieval_dedup_and_cap_witness :
    (itemC7 ∈ buildContext rpqC7)
    ∧ (("y", (1:ℚ)/62) ∈ (reciprocal_rank_fusion rpqC7 60).take 15)
    ∧ find_document_by_id rpqC7 "y" = some hitM2
    ∧ effMessageId hitM2.payload = itemC7.source_msg_uid
    ∧ hitM2.payload.fact ≠ ""
    ∧ ((1:ℚ)/62 ≤ itemC7.score)
    ∧ ((retrieve_context_model embedFail2 searchConst ["q1"]).map
        ContextItem.source_msg_uid).Nodup :=
  ⟨by with_unfolding_all decide,
   by with_unfolding_all decide,
   by decide,
   by decide,
   by decide,
   C7_retrieval_dedup_and_cap.2 rpqC7 itemC7 (by with_unfolding_all decide)
     ("y", (1:ℚ)/62) (by with_unfolding_all decide) hitM2 (by decide) (by decide)
     (by decide),
   (C7_retrieval_dedup_and_cap.1 embedFail2 searchConst ["q1"]).1⟩
